import Mathlib

/-!
Verification of the retail demand / waste-risk pipeline.

Shallow embedding of the repository's feature-engineering and risk-scoring
modules (`feature_engineering.py` / `waste_predictor.py`, in both the
top-level and `src/` variants).  Tables are lists of rows; pandas numeric
cells are rationals (`ℚ`); a cell that may hold NaN is `Option ℚ` with
`none` standing for NaN.  The float literal `1e-6` is embedded as the exact
rational `1/1000000`; the tiny binary-rounding error of the double `1e-6`
does not affect any property proved here (only positivity and exact
formula shapes are used).

Transcendental operations that have no computable rational counterpart
(month extraction from a parsed date, `np.sin`/`np.cos` for the cyclical
encodings, and the square root inside the sample standard deviation) are
parameters of the model (`Irr`); every theorem quantifies over them, so the
results hold for the actual real-valued functions.
-/

namespace Retail

/-- `np.clip(x, lo, hi)`: `min` then `max`. -/
def clip (x lo hi : ℚ) : ℚ := max lo (min x hi)

/-- The guard epsilon `1e-6` used throughout both modules. -/
def eps : ℚ := 1 / 1000000

/-- Mean of a list of rationals (`pandas` mean of a non-empty window). -/
def mean (xs : List ℚ) : ℚ := xs.sum / xs.length

/-- Sample variance with `ddof = 1` (pandas default): NaN (`none`) when the
list has fewer than two elements.  The source's rolling/aggregate `std` is
the square root of this; definedness (NaN-ness) of `std` coincides with
definedness of the variance. -/
def sampleVar (xs : List ℚ) : Option ℚ :=
  if xs.length ≤ 1 then none
  else some ((xs.map (fun x => (x - mean xs) ^ 2)).sum / ((xs.length : ℚ) - 1))

/-- Last `w` elements of a list: the trailing rolling window. -/
def lastN (w : ℕ) (xs : List α) : List α := xs.drop (xs.length - w)

/-- Stand-ins for the non-rational operations of the source: month
extraction from the parsed date, the four cyclical `sin`/`cos` encoders
(functions of `day_of_week` resp. `month`), and the square root used by the
sample standard deviation.  All theorems are quantified over these, hence
hold for the actual transcendental functions. -/
structure Irr where
  monthOf : ℕ → ℕ
  daySin : ℕ → ℚ
  dayCos : ℕ → ℚ
  monthSin : ℕ → ℚ
  monthCos : ℕ → ℚ
  sqrtQ : ℚ → ℚ

/-- A concrete instantiation of `Irr`, used by evaluation witnesses. -/
def irr0 : Irr :=
  { monthOf := fun _ => 1, daySin := fun _ => 0, dayCos := fun _ => 0,
    monthSin := fun _ => 0, monthCos := fun _ => 0, sqrtQ := fun x => x }

/-- A raw `SalesObservation` row.  `date` is a day ordinal (the sort order
of parsed dates), `product` an identifier.  `price` is carried as a
possibly-missing (`Option`) pre-existing column, to express the frame
conditions about missing values in pre-existing columns. -/
structure Row where
  store_id : ℕ
  product : ℕ
  date : ℕ
  sales : ℚ
  stock : ℚ
  waste : ℚ
  waste_percentage : ℚ
  price : Option ℚ
  day_of_week : ℕ
  shelf_life_days : ℚ
  perishable : Bool
deriving DecidableEq

/-- Row after `create_temporal_features`: calendar columns added. -/
structure Row1 extends Row where
  month : ℕ
  is_weekend : Bool
  day_sin : ℚ
  day_cos : ℚ
  month_sin : ℚ
  month_cos : ℚ
deriving DecidableEq

/-- The three rolling columns produced for one window size `w`:
`sales_rolling_mean_wd`, `sales_rolling_std_wd` (possibly NaN before the
fill), `waste_rolling_mean_wd`. -/
structure RollEntry where
  window : ℕ
  sales_rolling_mean : ℚ
  sales_rolling_std : Option ℚ
  waste_rolling_mean : ℚ
deriving DecidableEq

/-- Row after `create_rolling_features`: one `RollEntry` per window. -/
structure Row2 extends Row1 where
  roll : List RollEntry
deriving DecidableEq

/-- Row after `create_ratio_features`. `sales_deviation_7d` is `none` when
the 7-day rolling columns are absent or hold NaN. -/
structure Row3 extends Row2 where
  sales_stock_ratio : ℚ
  sales_deviation_7d : Option ℚ
  waste_efficiency : ℚ
deriving DecidableEq

/-- Row after `create_aggregate_features`.  `product_sales_std` is the
per-product sample std over the whole table; NaN (`none`) for a product
with a single observation.  (The `src/` variant names these columns
`prod_*`; the semantics are identical.) -/
structure Row4 extends Row3 where
  product_sales_mean : ℚ
  product_sales_std : Option ℚ
  product_waste_mean : ℚ
  store_sales_mean : ℚ
  store_waste_mean : ℚ
deriving DecidableEq

/-- `create_temporal_features`: a per-row map adding the calendar columns
(`month`, `is_weekend = (day_of_week ≥ 5)`, and the cyclical encodings). -/
def create_temporal_features (p : Irr) (df : List Row) : List Row1 :=
  df.map fun r =>
    { toRow := r
      month := p.monthOf r.date
      is_weekend := decide (5 ≤ r.day_of_week)
      day_sin := p.daySin r.day_of_week
      day_cos := p.dayCos r.day_of_week
      month_sin := p.monthSin (p.monthOf r.date)
      month_cos := p.monthCos (p.monthOf r.date) }

/-- The `(store_id, product, date)` key triple of a row. -/
def keyT (r : Row) : ℕ × ℕ × ℕ := (r.store_id, r.product, r.date)

/-- Lexicographic `≤` on the `(store_id, product, date)` key — the order
used by `df.sort_values(['store_id', 'product', 'date'])`. -/
def keyLe (a b : Row) : Prop :=
  a.store_id < b.store_id ∨
    (a.store_id = b.store_id ∧
      (a.product < b.product ∨ (a.product = b.product ∧ a.date ≤ b.date)))

/-- Strict lexicographic `<` on the key triple. -/
def keyLt (a b : Row) : Prop :=
  a.store_id < b.store_id ∨
    (a.store_id = b.store_id ∧
      (a.product < b.product ∨ (a.product = b.product ∧ a.date < b.date)))

instance : DecidableRel keyLe := fun a b => by unfold keyLe; infer_instance

/-- The sort relation on temporal-feature rows, by key of the base row. -/
def rle (a b : Row1) : Prop := keyLe a.toRow b.toRow

instance : DecidableRel rle := fun a b => by unfold rle; infer_instance

instance : IsTotal Row1 rle :=
  ⟨by intro a b; unfold rle keyLe; omega⟩

instance : IsTrans Row1 rle :=
  ⟨by intro a b c; unfold rle keyLe; omega⟩

/-- `df.sort_values(['store_id', 'product', 'date'])`.  With pairwise
distinct keys (the data-model identity invariant) the tie-breaking /
stability of the sort algorithm is irrelevant: any sort produces the same
list, so insertion sort is a faithful model. -/
def sortRows (df : List Row1) : List Row1 := df.insertionSort rle

/-- Rows of the same `(store_id, product)` partition —
the pandas `groupby(['store_id', 'product'])` group membership test. -/
def sameGroup (r x : Row1) : Bool :=
  x.store_id == r.store_id && x.product == r.product

/-- The three rolling statistics for window `w` over the trailing group
prefix `g` (the group's rows up to and including the current row, in table
order): `rolling(w, min_periods=1)` take the last `w` of those. -/
def mkEntry (p : Irr) (w : ℕ) (g : List Row1) : RollEntry :=
  let win := lastN w g
  { window := w
    sales_rolling_mean := mean (win.map (·.sales))
    sales_rolling_std := (sampleVar (win.map (·.sales))).map p.sqrtQ
    waste_rolling_mean := mean (win.map (·.waste)) }

/-- One output row of the rolling stage (before the fill): the input row
with, for each window, the rolling columns computed from the trailing
prefix of its `(store_id, product)` group. -/
def rollRow (p : Irr) (windows : List ℕ) (pre : List Row1) (r : Row1) : Row2 :=
  { toRow1 := r, roll := windows.map fun w => mkEntry p w (pre.filter (sameGroup r)) }

/-- The grouped rolling transform over an (already sorted) table: for each
row, the window is drawn from the rows of its group among the rows seen so
far (pandas `groupby(...).transform(lambda x: x.rolling(w, min_periods=1))`
evaluated positionally on the sorted frame). -/
def rollOnSorted (p : Irr) (windows : List ℕ) : List Row1 → List Row1 → List Row2
  | _, [] => []
  | seen, r :: rest =>
      rollRow p windows (seen ++ [r]) r :: rollOnSorted p windows (seen ++ [r]) rest

/-- The whole-table `df.fillna(0)` closing the rolling stage: every NaN in
every column — the cold-start rolling stds and any missing entry of a
pre-existing column — becomes 0. -/
def fillRow2 (r : Row2) : Row2 :=
  { r with
    price := some (r.price.getD 0)
    roll := r.roll.map fun e => { e with sales_rolling_std := some (e.sales_rolling_std.getD 0) } }

/-- `create_rolling_features`: sort by `(store_id, product, date)`, compute
the grouped rolling columns for each window, then `fillna(0)` on the whole
frame.  The top-level variant defaults `windows = [7, 14, 30]`, the `src/`
variant `[7, 14]`; both are instances of this definition. -/
def create_rolling_features (p : Irr) (windows : List ℕ) (df : List Row1) : List Row2 :=
  (rollOnSorted p windows [] (sortRows df)).map fillRow2

/-- Lookup of the 7-day rolling entry (the column-presence test
`'sales_rolling_mean_7d' in df.columns`). -/
def find7 (r : Row2) : Option RollEntry := r.roll.find? (fun e => e.window == 7)

/-- `create_ratio_features`: per-row ratios; the deviation z-score only
when the 7-day rolling columns are present (and not NaN). -/
def create_ratio_features (df : List Row2) : List Row3 :=
  df.map fun r =>
    { toRow2 := r
      sales_stock_ratio := r.sales / (r.stock + eps)
      sales_deviation_7d :=
        (find7 r).bind fun e =>
          e.sales_rolling_std.map fun sd => (r.sales - e.sales_rolling_mean) / (sd + eps)
      waste_efficiency := 1 - r.waste / (r.stock + eps) }

/-- `create_aggregate_features`: per-product and per-store statistics over
the entire table, left-joined back onto every row. -/
def create_aggregate_features (p : Irr) (df : List Row3) : List Row4 :=
  df.map fun r =>
    let pg := df.filter fun x => x.product == r.product
    let sg := df.filter fun x => x.store_id == r.store_id
    { toRow3 := r
      product_sales_mean := mean (pg.map (·.sales))
      product_sales_std := (sampleVar (pg.map (·.sales))).map p.sqrtQ
      product_waste_mean := mean (pg.map (·.waste_percentage))
      store_sales_mean := mean (sg.map (·.sales))
      store_waste_mean := mean (sg.map (·.waste_percentage)) }

/-- `engineer_features` (top-level variant): the four stages in order. -/
def engineer_features (p : Irr) (windows : List ℕ) (df : List Row) : List Row4 :=
  create_aggregate_features p
    (create_ratio_features (create_rolling_features p windows (create_temporal_features p df)))

/-- `engineer_features` of the `src/` variant: guarded by `if df.empty:
return df` — an empty input is returned unchanged (`Sum.inl`), without
running any stage; otherwise the featurized table is produced. -/
def engineer_features_src (p : Irr) (windows : List ℕ) (df : List Row) :
    List Row ⊕ List Row4 :=
  if df.isEmpty then Sum.inl df else Sum.inr (engineer_features p windows df)

/-- Presence flags for the optional rolling columns — the
`'...' in df.columns` tests of the scoring engines.  Column presence is a
table-level fact in pandas, so it is a separate input from the row values. -/
structure Cols where
  has_waste_rolling_mean_14d : Bool
  has_sales_rolling_mean_7d : Bool
  has_sales_rolling_mean_14d : Bool
deriving DecidableEq

/-- The fields of a feature row read by the scoring engines.  The value of
an optional column is only consulted when its presence flag is set. -/
structure PredRow where
  waste_percentage : ℚ
  stock : ℚ
  perishable : Bool
  waste_rolling_mean_14d : ℚ
  sales_rolling_mean_7d : ℚ
  sales_rolling_mean_14d : ℚ
deriving DecidableEq

/-- Output of top-level `WasteRiskPredictor.calculate_waste_risk`: the six
component score columns and the composite. -/
structure Scores where
  score_current_waste : ℚ
  score_historical_waste : ℚ
  score_sales_trend : ℚ
  score_stock_level : ℚ
  score_perishability : ℚ
  score_seasonality : ℚ
  waste_risk_score : ℚ
deriving DecidableEq

/-- Top-level `calculate_waste_risk` (weights 0.25 / 0.20 / 0.20 / 0.15 /
0.10 / 0.10).  Total: every guarded column access is behind its own
presence test, so the engine never raises. -/
def calculate_waste_risk (c : Cols) (r : PredRow) : Scores :=
  let sc := clip r.waste_percentage 0 100
  let sh :=
    if c.has_waste_rolling_mean_14d then
      clip (r.waste_rolling_mean_14d / (r.stock + eps) * 100) 0 100
    else 0
  let st :=
    if c.has_sales_rolling_mean_7d && c.has_sales_rolling_mean_14d then
      clip
        ((-((r.sales_rolling_mean_7d - r.sales_rolling_mean_14d) /
              (r.sales_rolling_mean_14d + eps)) + 1 / 2) * 100) 0 100
    else 50
  let sl :=
    if c.has_sales_rolling_mean_7d then
      clip ((r.stock / (r.sales_rolling_mean_7d + eps) - 1) * 50) 0 100
    else 50
  let sp : ℚ := if r.perishable then 100 else 0
  let ss : ℚ := 50
  { score_current_waste := sc
    score_historical_waste := sh
    score_sales_trend := st
    score_stock_level := sl
    score_perishability := sp
    score_seasonality := ss
    waste_risk_score :=
      sc * (25 / 100) + sh * (20 / 100) + st * (20 / 100) + sl * (15 / 100) +
        sp * (10 / 100) + ss * (10 / 100) }

/-- Output of `src/` `WasteRiskPredictor.calculate_risk`: four stored
component scores (perishability enters the composite inline) and the
composite. -/
structure ScoresS where
  score_current : ℚ
  score_hist : ℚ
  score_trend : ℚ
  score_stock : ℚ
  waste_risk_score : ℚ
deriving DecidableEq

/-- `src/` `calculate_risk` (weights 0.30 / 0.20 / 0.20 / 0.20 / 0.10).
Its trend branch tests only `sales_rolling_mean_7d` for presence but then
reads `sales_rolling_mean_14d` unconditionally, so when the 7-day column is
present and the 14-day column absent the engine raises a `KeyError` —
modelled as `none`.  When the 7-day column is absent, trend and stock
scores default to 0 (not 50). -/
def calculate_risk (c : Cols) (r : PredRow) : Option ScoresS :=
  if c.has_sales_rolling_mean_7d && !c.has_sales_rolling_mean_14d then none
  else
    let sc := clip r.waste_percentage 0 100
    let sh :=
      if c.has_waste_rolling_mean_14d then
        clip (r.waste_rolling_mean_14d / (r.stock + eps) * 100 * 5) 0 100
      else 0
    let st :=
      if c.has_sales_rolling_mean_7d then
        clip ((r.sales_rolling_mean_7d - r.sales_rolling_mean_14d) * (-200)) 0 100
      else 0
    let sl :=
      if c.has_sales_rolling_mean_7d then
        clip ((r.stock / (r.sales_rolling_mean_7d + eps) - 1) * 50) 0 100
      else 0
    let sp : ℚ := if r.perishable then 100 else 0
    some
      { score_current := sc
        score_hist := sh
        score_trend := st
        score_stock := sl
        waste_risk_score :=
          sc * (30 / 100) + sh * (20 / 100) + st * (20 / 100) + sl * (20 / 100) +
            sp * (10 / 100) }

/-- The discrete risk tier. -/
inductive RiskLevel
  | Low
  | Medium
  | High
deriving DecidableEq

/-- Order rank of a tier, for monotonicity statements. -/
def RiskLevel.rank : RiskLevel → ℕ
  | .Low => 0
  | .Medium => 1
  | .High => 2

/-- Top-level tier assignment: `pd.cut(score, bins=[0, 30, 60, 100],
labels=['Low', 'Medium', 'High'])` — half-open bins `(0,30]`, `(30,60]`,
`(60,100]`; a value outside them (in particular an exact 0) gets NaN. -/
def risk_level_cut (s : ℚ) : Option RiskLevel :=
  if 0 < s ∧ s ≤ 30 then some .Low
  else if 30 < s ∧ s ≤ 60 then some .Medium
  else if 60 < s ∧ s ≤ 100 then some .High
  else none

/-- `src/` tier assignment: `pd.cut(score, bins=[-1, 30, 60, 101], ...)` —
bins `(-1,30]`, `(30,60]`, `(60,101]`, covering every score in [0,100]. -/
def risk_level_cut_src (s : ℚ) : Option RiskLevel :=
  if -1 < s ∧ s ≤ 30 then some .Low
  else if 30 < s ∧ s ≤ 60 then some .Medium
  else if 60 < s ∧ s ≤ 101 then some .High
  else none

/-- The spec's classification, stated from its words (for refinement
comparison with the two `pd.cut` embeddings above): Low if score ≤ 30,
Medium if 30 < score ≤ 60, High if score > 60. -/
def tierSpec (s : ℚ) : RiskLevel :=
  if s ≤ 30 then .Low else if s ≤ 60 then .Medium else .High

/-- Fields of a row read by the recommendation rules (both variants).
`row.get(key, default)` never raises, so plain fields — taking the default
value when the column is missing — model every behaviour. -/
structure RecRow where
  waste_risk_score : ℚ
  perishable : Bool
  waste_percentage : ℚ
  shelf_life_days : ℚ
  sales_stock_ratio : ℚ
deriving DecidableEq

/-- Top-level `get_recommendations`.  `fmt` stands in for the f-string
interpolation of the computed days-to-expiry into the urgency message. -/
def get_recommendations (fmt : ℚ → String) (r : RecRow) : List String :=
  let l1 : List String :=
    if 60 < r.waste_risk_score then
      ["URGENT: Consider immediate markdown (20-30% off)",
       "Reduce next order quantity by 30-50%"] ++
        (if r.perishable then ["Move to prominent display location"] else [])
    else if 40 < r.waste_risk_score then
      ["Apply promotional discount (10-15% off)",
       "Reduce next order quantity by 15-25%"]
    else []
  let l2 : List String :=
    if r.perishable = true ∧ 30 < r.waste_percentage then
      let days_left := r.shelf_life_days * (1 - r.waste_percentage / 200)
      if days_left < 2 then [fmt days_left] else []
    else []
  let l3 : List String :=
    if r.sales_stock_ratio < 1 / 2 then ["Improve product placement/visibility"] else []
  let recs := l1 ++ l2 ++ l3
  if recs.isEmpty then ["Monitor closely", "Continue normal operations"] else recs

/-- `src/` `get_recommendations`. -/
def get_recommendations_src (r : RecRow) : List String :=
  let l1 : List String :=
    if 70 < r.waste_risk_score then
      ["URGENT: Markdown 30% immediately", "Halve next supplier order"]
    else if 40 < r.waste_risk_score then
      ["Apply 15% discount", "Reduce order quantity"]
    else []
  let l2 : List String :=
    if r.perishable = true ∧ 10 < r.waste_percentage then
      ["Inspect quality / Check expiration"]
    else []
  let recs := l1 ++ l2
  if recs.isEmpty then ["Monitor Standard Levels"] else recs

/-! Helper lemmas. -/

lemma clip_nonneg (x : ℚ) : 0 ≤ clip x 0 100 := le_max_left _ _

lemma clip_le_100 (x : ℚ) : clip x 0 100 ≤ 100 :=
  max_le (by norm_num) (min_le_right _ _)

lemma weighted_term_bounds {a w : ℚ} (h0 : 0 ≤ a) (h1 : a ≤ 100) (hw : 0 ≤ w) :
    0 ≤ a * w ∧ a * w ≤ 100 * w :=
  ⟨mul_nonneg h0 hw, mul_le_mul_of_nonneg_right h1 hw⟩

/-- Bounds of the six component scores of the top-level engine. -/
lemma calculate_waste_risk_component_bounds (c : Cols) (r : PredRow) :
    (0 ≤ (calculate_waste_risk c r).score_current_waste ∧
        (calculate_waste_risk c r).score_current_waste ≤ 100) ∧
      (0 ≤ (calculate_waste_risk c r).score_historical_waste ∧
        (calculate_waste_risk c r).score_historical_waste ≤ 100) ∧
      (0 ≤ (calculate_waste_risk c r).score_sales_trend ∧
        (calculate_waste_risk c r).score_sales_trend ≤ 100) ∧
      (0 ≤ (calculate_waste_risk c r).score_stock_level ∧
        (calculate_waste_risk c r).score_stock_level ≤ 100) ∧
      (0 ≤ (calculate_waste_risk c r).score_perishability ∧
        (calculate_waste_risk c r).score_perishability ≤ 100) ∧
      (0 ≤ (calculate_waste_risk c r).score_seasonality ∧
        (calculate_waste_risk c r).score_seasonality ≤ 100) := by
  unfold calculate_waste_risk
  refine ⟨⟨clip_nonneg _, clip_le_100 _⟩, ?_, ?_, ?_, ?_, by norm_num⟩ <;>
    dsimp only <;> split_ifs <;>
      first
        | exact ⟨clip_nonneg _, clip_le_100 _⟩
        | norm_num

/-- The composite of the top-level engine is the weighted sum of its
component columns (definitional). -/
lemma calculate_waste_risk_weighted (c : Cols) (r : PredRow) :
    (calculate_waste_risk c r).waste_risk_score =
      (calculate_waste_risk c r).score_current_waste * (25 / 100) +
        (calculate_waste_risk c r).score_historical_waste * (20 / 100) +
        (calculate_waste_risk c r).score_sales_trend * (20 / 100) +
        (calculate_waste_risk c r).score_stock_level * (15 / 100) +
        (calculate_waste_risk c r).score_perishability * (10 / 100) +
        (calculate_waste_risk c r).score_seasonality * (10 / 100) := rfl

/-- Bounds of the top-level composite score. -/
lemma calculate_waste_risk_score_bounds (c : Cols) (r : PredRow) :
    0 ≤ (calculate_waste_risk c r).waste_risk_score ∧
      (calculate_waste_risk c r).waste_risk_score ≤ 100 := by
  obtain ⟨h1, h2, h3, h4, h5, h6⟩ := calculate_waste_risk_component_bounds c r
  rw [calculate_waste_risk_weighted]
  have t1 := weighted_term_bounds h1.1 h1.2 (by norm_num : (0:ℚ) ≤ 25 / 100)
  have t2 := weighted_term_bounds h2.1 h2.2 (by norm_num : (0:ℚ) ≤ 20 / 100)
  have t3 := weighted_term_bounds h3.1 h3.2 (by norm_num : (0:ℚ) ≤ 20 / 100)
  have t4 := weighted_term_bounds h4.1 h4.2 (by norm_num : (0:ℚ) ≤ 15 / 100)
  have t5 := weighted_term_bounds h5.1 h5.2 (by norm_num : (0:ℚ) ≤ 10 / 100)
  have t6 := weighted_term_bounds h6.1 h6.2 (by norm_num : (0:ℚ) ≤ 10 / 100)
  constructor <;> linarith [t1.1, t1.2, t2.1, t2.2, t3.1, t3.2, t4.1, t4.2,
    t5.1, t5.2, t6.1, t6.2]

/-- Shape of a successful `src/` engine result. -/
lemma calculate_risk_eq_some {c : Cols} {r : PredRow} {s : ScoresS}
    (h : calculate_risk c r = some s) :
    (0 ≤ s.score_current ∧ s.score_current ≤ 100) ∧
      (0 ≤ s.score_hist ∧ s.score_hist ≤ 100) ∧
      (0 ≤ s.score_trend ∧ s.score_trend ≤ 100) ∧
      (0 ≤ s.score_stock ∧ s.score_stock ≤ 100) ∧
      s.waste_risk_score =
        s.score_current * (30 / 100) + s.score_hist * (20 / 100) +
          s.score_trend * (20 / 100) + s.score_stock * (20 / 100) +
          (if r.perishable then (100:ℚ) else 0) * (10 / 100) := by
  unfold calculate_risk at h
  split at h
  · exact absurd h (by simp)
  · obtain rfl := Option.some.inj h
    refine ⟨⟨clip_nonneg _, clip_le_100 _⟩, ?_, ?_, ?_, rfl⟩ <;>
      dsimp only <;> split_ifs <;>
        first
          | exact ⟨clip_nonneg _, clip_le_100 _⟩
          | norm_num

/-- Bounds of the `src/` composite score. -/
lemma calculate_risk_score_bounds {c : Cols} {r : PredRow} {s : ScoresS}
    (h : calculate_risk c r = some s) :
    0 ≤ s.waste_risk_score ∧ s.waste_risk_score ≤ 100 := by
  obtain ⟨h1, h2, h3, h4, hw⟩ := calculate_risk_eq_some h
  have h5 : 0 ≤ (if r.perishable then (100:ℚ) else 0) ∧
      (if r.perishable then (100:ℚ) else 0) ≤ 100 := by split_ifs <;> norm_num
  rw [hw]
  have t1 := weighted_term_bounds h1.1 h1.2 (by norm_num : (0:ℚ) ≤ 30 / 100)
  have t2 := weighted_term_bounds h2.1 h2.2 (by norm_num : (0:ℚ) ≤ 20 / 100)
  have t3 := weighted_term_bounds h3.1 h3.2 (by norm_num : (0:ℚ) ≤ 20 / 100)
  have t4 := weighted_term_bounds h4.1 h4.2 (by norm_num : (0:ℚ) ≤ 20 / 100)
  have t5 := weighted_term_bounds h5.1 h5.2 (by norm_num : (0:ℚ) ≤ 10 / 100)
  constructor <;> linarith [t1.1, t1.2, t2.1, t2.2, t3.1, t3.2, t4.1, t4.2,
    t5.1, t5.2]

/-! Claim theorems. -/

/-- C2: for every input row (and any configuration of optional-column
presence), the composite `waste_risk_score` equals the weighted sum of the
component scores, the fixed weights sum to 1, and every component score as
well as the composite lies in [0,100] — in the top-level engine
(`calculate_waste_risk`, weights .25/.20/.20/.15/.10/.10) and, whenever it
returns, in the `src/` engine (`calculate_risk`, weights
.30/.20/.20/.20/.10, perishability entering the sum inline). -/
theorem risk_score_weighted_bounded_C2 (c : Cols) (r : PredRow) :
    ((0 ≤ (calculate_waste_risk c r).score_current_waste ∧
        (calculate_waste_risk c r).score_current_waste ≤ 100) ∧
      (0 ≤ (calculate_waste_risk c r).score_historical_waste ∧
        (calculate_waste_risk c r).score_historical_waste ≤ 100) ∧
      (0 ≤ (calculate_waste_risk c r).score_sales_trend ∧
        (calculate_waste_risk c r).score_sales_trend ≤ 100) ∧
      (0 ≤ (calculate_waste_risk c r).score_stock_level ∧
        (calculate_waste_risk c r).score_stock_level ≤ 100) ∧
      (0 ≤ (calculate_waste_risk c r).score_perishability ∧
        (calculate_waste_risk c r).score_perishability ≤ 100) ∧
      (0 ≤ (calculate_waste_risk c r).score_seasonality ∧
        (calculate_waste_risk c r).score_seasonality ≤ 100)) ∧
    (calculate_waste_risk c r).waste_risk_score =
      (calculate_waste_risk c r).score_current_waste * (25 / 100) +
        (calculate_waste_risk c r).score_historical_waste * (20 / 100) +
        (calculate_waste_risk c r).score_sales_trend * (20 / 100) +
        (calculate_waste_risk c r).score_stock_level * (15 / 100) +
        (calculate_waste_risk c r).score_perishability * (10 / 100) +
        (calculate_waste_risk c r).score_seasonality * (10 / 100) ∧
    ((25:ℚ) / 100 + 20 / 100 + 20 / 100 + 15 / 100 + 10 / 100 + 10 / 100 = 1) ∧
    (0 ≤ (calculate_waste_risk c r).waste_risk_score ∧
      (calculate_waste_risk c r).waste_risk_score ≤ 100) ∧
    (∀ s : ScoresS, calculate_risk c r = some s →
      (0 ≤ s.score_current ∧ s.score_current ≤ 100) ∧
        (0 ≤ s.score_hist ∧ s.score_hist ≤ 100) ∧
        (0 ≤ s.score_trend ∧ s.score_trend ≤ 100) ∧
        (0 ≤ s.score_stock ∧ s.score_stock ≤ 100) ∧
        s.waste_risk_score =
          s.score_current * (30 / 100) + s.score_hist * (20 / 100) +
            s.score_trend * (20 / 100) + s.score_stock * (20 / 100) +
            (if r.perishable then (100:ℚ) else 0) * (10 / 100) ∧
        ((30:ℚ) / 100 + 20 / 100 + 20 / 100 + 20 / 100 + 10 / 100 = 1) ∧
        (0 ≤ s.waste_risk_score ∧ s.waste_risk_score ≤ 100)) := by
  refine ⟨calculate_waste_risk_component_bounds c r,
    calculate_waste_risk_weighted c r, by norm_num,
    calculate_waste_risk_score_bounds c r, ?_⟩
  intro s hs
  obtain ⟨h1, h2, h3, h4, hw⟩ := calculate_risk_eq_some hs
  exact ⟨h1, h2, h3, h4, hw, by norm_num, calculate_risk_score_bounds hs⟩

/-- Evaluation witness for C2 at a concrete row, all optional columns
present. -/
theorem risk_score_weighted_bounded_C2_witness :
    0 ≤ (calculate_waste_risk ⟨true, true, true⟩
        ⟨20, 5, true, 1, 2, 3⟩).waste_risk_score ∧
      ∀ s : ScoresS, calculate_risk ⟨true, true, true⟩ ⟨20, 5, true, 1, 2, 3⟩ = some s →
        0 ≤ s.waste_risk_score :=
  ⟨((risk_score_weighted_bounded_C2 ⟨true, true, true⟩
      ⟨20, 5, true, 1, 2, 3⟩).2.2.2.1).1,
    fun s hs =>
      (((risk_score_weighted_bounded_C2 ⟨true, true, true⟩
        ⟨20, 5, true, 1, 2, 3⟩).2.2.2.2 s hs).2.2.2.2.2.2).1⟩

/-- C3: risk-tier classification.  The `src/` cut (`bins=[-1,30,60,101]`)
realizes, on every score in [0,100] (boundaries 0, 30, 60, 100 included),
exactly the claimed map — Low iff score ≤ 30, Medium iff 30 < score ≤ 60,
High iff score > 60 — which is monotone non-decreasing; the top-level
engine's composite always lies in [5,100] (the constant seasonality score
contributes 5), so the top-level cut (`bins=[0,30,60,100]`, undefined at an
exact 0) also assigns every actual row exactly the claimed tier. -/
theorem risk_level_classification_C3 :
    (∀ s : ℚ, 0 ≤ s → s ≤ 100 → risk_level_cut_src s = some (tierSpec s)) ∧
    (∀ s t : ℚ, s ≤ t → (tierSpec s).rank ≤ (tierSpec t).rank) ∧
    (∀ (c : Cols) (r : PredRow),
      5 ≤ (calculate_waste_risk c r).waste_risk_score ∧
      (calculate_waste_risk c r).waste_risk_score ≤ 100 ∧
      risk_level_cut (calculate_waste_risk c r).waste_risk_score =
        some (tierSpec (calculate_waste_risk c r).waste_risk_score)) := by
  have hcut : ∀ s : ℚ, 0 ≤ s → s ≤ 100 → risk_level_cut_src s = some (tierSpec s) := by
    intro s h0 h1
    unfold risk_level_cut_src tierSpec
    rcases le_or_lt s 30 with h30 | h30
    · rw [if_pos ⟨by linarith, h30⟩, if_pos h30]
    · rcases le_or_lt s 60 with h60 | h60
      · rw [if_neg (fun h => absurd h.2 (not_le.2 h30)), if_pos ⟨h30, h60⟩,
          if_neg (not_le.2 h30), if_pos h60]
      · rw [if_neg (fun h => absurd h.2 (not_le.2 h30)),
          if_neg (fun h => absurd h.2 (not_le.2 h60)),
          if_pos ⟨h60, by linarith⟩, if_neg (not_le.2 h30), if_neg (not_le.2 h60)]
  refine ⟨hcut, ?_, ?_⟩
  · intro s t hst
    unfold tierSpec
    split_ifs <;> simp [RiskLevel.rank] <;> linarith
  · intro c r
    obtain ⟨hb1, hb2, hb3, hb4, hb5, _⟩ := calculate_waste_risk_component_bounds c r
    have hub := (calculate_waste_risk_score_bounds c r).2
    have hseason : (calculate_waste_risk c r).score_seasonality = 50 := rfl
    have hlb : 5 ≤ (calculate_waste_risk c r).waste_risk_score := by
      rw [calculate_waste_risk_weighted, hseason]
      have t1 := mul_nonneg hb1.1 (by norm_num : (0:ℚ) ≤ 25 / 100)
      have t2 := mul_nonneg hb2.1 (by norm_num : (0:ℚ) ≤ 20 / 100)
      have t3 := mul_nonneg hb3.1 (by norm_num : (0:ℚ) ≤ 20 / 100)
      have t4 := mul_nonneg hb4.1 (by norm_num : (0:ℚ) ≤ 15 / 100)
      have t5 := mul_nonneg hb5.1 (by norm_num : (0:ℚ) ≤ 10 / 100)
      linarith
    refine ⟨hlb, hub, ?_⟩
    unfold risk_level_cut tierSpec
    rcases le_or_lt (calculate_waste_risk c r).waste_risk_score 30 with h30 | h30
    · rw [if_pos ⟨by linarith, h30⟩, if_pos h30]
    · rcases le_or_lt (calculate_waste_risk c r).waste_risk_score 60 with h60 | h60
      · rw [if_neg (fun h => absurd h.2 (not_le.2 h30)), if_pos ⟨h30, h60⟩,
          if_neg (not_le.2 h30), if_pos h60]
      · rw [if_neg (fun h => absurd h.2 (not_le.2 h30)),
          if_neg (fun h => absurd h.2 (not_le.2 h60)),
          if_pos ⟨h60, by linarith⟩, if_neg (not_le.2 h30), if_neg (not_le.2 h60)]

/-- Evaluation witness for C3 at concrete scores and a concrete row. -/
theorem risk_level_classification_C3_witness :
    risk_level_cut_src 0 = some (tierSpec 0) ∧
      (tierSpec 30).rank ≤ (tierSpec 60).rank ∧
      5 ≤ (calculate_waste_risk ⟨false, false, false⟩
          ⟨0, 0, false, 0, 0, 0⟩).waste_risk_score :=
  ⟨risk_level_classification_C3.1 0 (by norm_num) (by norm_num),
    risk_level_classification_C3.2.1 30 60 (by norm_num),
    (risk_level_classification_C3.2.2 ⟨false, false, false⟩
      ⟨0, 0, false, 0, 0, 0⟩).1⟩

/-- C5 counterexample: the claim — "the risk scoring engine … degrades …
score_sales_trend = 50 (neutral) when the 7-day and 14-day rolling
sales-mean columns are not available", never raising — is false for the
`src/` engine `calculate_risk`: with both columns absent it sets
`score_trend = 0` (not 50), and with the 7-day column present but the
14-day column absent it raises a `KeyError` (result `none`) instead of
degrading. -/
theorem trend_default_zero_C5_counterexample :
    (calculate_risk ⟨false, false, false⟩ ⟨20, 5, false, 0, 0, 0⟩).map
        ScoresS.score_trend = some 0 ∧
      (calculate_risk ⟨false, false, false⟩ ⟨20, 5, false, 0, 0, 0⟩).map
        ScoresS.score_trend ≠ some 50 ∧
      calculate_risk ⟨false, true, false⟩ ⟨20, 5, false, 0, 0, 0⟩ = none := by
  refine ⟨?_, ?_, rfl⟩ <;> decide

/-- C5 amended: the top-level engine `calculate_waste_risk` is total
(every optional-column access is behind its own presence test) and
degrades as documented — `score_historical_waste = 0` when the 14-day
waste column is absent, `score_sales_trend = 50` when the two rolling
sales-mean columns are absent (also `score_stock_level = 50` when the
7-day one is absent); the `src/` engine `calculate_risk` degrades its
historical score to 0 but its trend and stock scores to 0 (not 50), and
raises (`none`) when the 7-day sales-mean column is present while the
14-day one is absent. -/
theorem missing_columns_defaults_C5 (c : Cols) (r : PredRow) :
    (c.has_waste_rolling_mean_14d = false →
      (calculate_waste_risk c r).score_historical_waste = 0 ∧
        ∀ s : ScoresS, calculate_risk c r = some s → s.score_hist = 0) ∧
    (c.has_sales_rolling_mean_7d = false → c.has_sales_rolling_mean_14d = false →
      (calculate_waste_risk c r).score_sales_trend = 50) ∧
    (c.has_sales_rolling_mean_7d = false →
      (calculate_waste_risk c r).score_stock_level = 50) ∧
    (c.has_sales_rolling_mean_7d = false →
      ∀ s : ScoresS, calculate_risk c r = some s →
        s.score_trend = 0 ∧ s.score_stock = 0) ∧
    (c.has_sales_rolling_mean_7d = true → c.has_sales_rolling_mean_14d = false →
      calculate_risk c r = none) := by
  obtain ⟨h14w, h7, h14⟩ := c
  refine ⟨?_, ?_, ?_, ?_, ?_⟩
  · rintro rfl
    refine ⟨rfl, ?_⟩
    intro s hs
    unfold calculate_risk at hs
    split at hs
    · exact absurd hs (by simp)
    · obtain rfl := Option.some.inj hs; rfl
  · rintro rfl rfl; rfl
  · rintro rfl; rfl
  · rintro rfl
    intro s hs
    unfold calculate_risk at hs
    split at hs
    · exact absurd hs (by simp)
    · obtain rfl := Option.some.inj hs; exact ⟨rfl, rfl⟩
  · rintro rfl rfl; rfl

/-- Evaluation witness for C5 (amended) at a concrete row with all
optional columns absent, and at the raising configuration. -/
theorem missing_columns_defaults_C5_witness :
    (calculate_waste_risk ⟨false, false, false⟩
        ⟨20, 5, false, 0, 0, 0⟩).score_sales_trend = 50 ∧
      calculate_risk ⟨true, true, false⟩ ⟨20, 5, false, 0, 0, 0⟩ = none :=
  ⟨(missing_columns_defaults_C5 ⟨false, false, false⟩
      ⟨20, 5, false, 0, 0, 0⟩).2.1 rfl rfl,
    (missing_columns_defaults_C5 ⟨true, true, false⟩
      ⟨20, 5, false, 0, 0, 0⟩).2.2.2.2 rfl rfl⟩

/-- C9: both recommendation engines always return a non-empty list, and on
an all-neutral row (composite score 0, not perishable, sales/stock ratio
at or above the 0.5 visibility threshold) they return exactly their
default "monitor" recommendation. -/
theorem recommendations_nonempty_default_C9 (fmt : ℚ → String) (r : RecRow) :
    get_recommendations fmt r ≠ [] ∧
      get_recommendations_src r ≠ [] ∧
      (r.waste_risk_score = 0 → r.perishable = false →
        1 / 2 ≤ r.sales_stock_ratio →
        get_recommendations fmt r = ["Monitor closely", "Continue normal operations"] ∧
          get_recommendations_src r = ["Monitor Standard Levels"]) := by
  have hne : ∀ (l d : List String), d ≠ [] → (if l.isEmpty then d else l) ≠ [] := by
    intro l d hd
    split
    · exact hd
    · next h => simpa [List.isEmpty_iff] using h
  refine ⟨?_, ?_, ?_⟩
  · exact hne _ _ (by simp)
  · exact hne _ _ (by simp)
  · intro hs hp hr
    obtain ⟨score, per, wp, sl, ratio⟩ := r
    obtain rfl : score = 0 := hs
    obtain rfl : per = false := hp
    replace hr : ¬ratio < 1 / 2 := not_lt.2 hr
    constructor
    · norm_num [get_recommendations, hr]
    · norm_num [get_recommendations_src]

/-- Evaluation witness for C9 at a concrete neutral row. -/
theorem recommendations_nonempty_default_C9_witness :
    get_recommendations (fun _ => "") ⟨0, false, 0, 7, 1⟩ =
        ["Monitor closely", "Continue normal operations"] ∧
      get_recommendations_src ⟨0, false, 0, 7, 1⟩ = ["Monitor Standard Levels"] :=
  (recommendations_nonempty_default_C9 (fun _ => "") ⟨0, false, 0, 7, 1⟩).2.2
    rfl rfl (by norm_num)

/-- C6: on any row with `stock = 0` and non-negative `sales` and `waste`,
the ratio stage (a total function — it never raises) divides by the
strictly positive `stock + 1e-6`, producing the finite values
`sales · 10⁶` and `1 − waste · 10⁶`; `waste_efficiency` is not clamped and
is negative as soon as `waste` exceeds the guarded stock. -/
theorem zero_stock_guard_C6 (df : List Row2) (r3 : Row3)
    (hmem : r3 ∈ create_ratio_features df) (hstock : r3.stock = 0)
    (hsales : 0 ≤ r3.sales) (hwaste : 0 ≤ r3.waste) :
    0 < r3.stock + eps ∧
      r3.sales_stock_ratio = r3.sales * 1000000 ∧
      r3.waste_efficiency = 1 - r3.waste * 1000000 ∧
      (eps < r3.waste → r3.waste_efficiency < 0) := by
  obtain ⟨x, -, rfl⟩ := List.mem_map.1 hmem
  replace hstock : x.stock = 0 := hstock
  refine ⟨by rw [hstock]; norm_num [eps], ?_, ?_, ?_⟩
  · show x.sales / (x.stock + eps) = x.sales * 1000000
    rw [hstock, eps, zero_add, div_eq_mul_inv, one_div, inv_inv]
  · show 1 - x.waste / (x.stock + eps) = 1 - x.waste * 1000000
    rw [hstock, eps, zero_add, div_eq_mul_inv, one_div, inv_inv]
  · intro h
    show 1 - x.waste / (x.stock + eps) < 0
    rw [hstock, eps] at *
    have h6 : (0:ℚ) < 1000000 := by norm_num
    have := mul_lt_mul_of_pos_right h h6
    rw [div_eq_mul_inv]
    norm_num at this ⊢
    linarith

/-- Concrete zero-stock row used by the C6 witness. -/
def w6row : Row2 :=
  { store_id := 1, product := 1, date := 1, sales := 3, stock := 0, waste := 1,
    waste_percentage := 0, price := some 1, day_of_week := 0, shelf_life_days := 7,
    perishable := false, month := 1, is_weekend := false, day_sin := 0, day_cos := 0,
    month_sin := 0, month_cos := 0, roll := [] }

/-- The ratio-stage output row for `w6row`. -/
def w6out : Row3 :=
  { toRow2 := w6row, sales_stock_ratio := 3 / (0 + eps), sales_deviation_7d := none,
    waste_efficiency := 1 - 1 / (0 + eps) }

/-- Evaluation witness for C6 on the concrete zero-stock row. -/
theorem zero_stock_guard_C6_witness :
    0 < w6out.stock + eps ∧
      w6out.sales_stock_ratio = w6out.sales * 1000000 ∧
      w6out.waste_efficiency = 1 - w6out.waste * 1000000 ∧
      (eps < w6out.waste → w6out.waste_efficiency < 0) :=
  zero_stock_guard_C6 [w6row] w6out (List.mem_singleton.mpr rfl) rfl
    (by norm_num [w6out, w6row]) (by norm_num [w6out, w6row])

/-- C1: on any table holding a single `(store_id, product)` partition
sorted ascending by date with sales `[10, 20, 30]`, the rolling stage
produces `sales_rolling_mean_7d = [10, 15, 20]` — the expanding
(`min_periods = 1`) mean whose first value is the first observation — and
the first row's `sales_rolling_std_7d`, undefined as a sample standard
deviation of a single point, is 0 after the closing `fillna(0)`.  Stated
for both window configurations (`[7, 14]` of the `src/` variant and
`[7, 14, 30]` of the top-level variant). -/
theorem rolling_mean_expanding_C1 (p : Irr) (r1 r2 r3 : Row1)
    (hs2 : r2.store_id = r1.store_id) (hs3 : r3.store_id = r1.store_id)
    (hp2 : r2.product = r1.product) (hp3 : r3.product = r1.product)
    (hd12 : r1.date ≤ r2.date) (hd23 : r2.date ≤ r3.date)
    (hv1 : r1.sales = 10) (hv2 : r2.sales = 20) (hv3 : r3.sales = 30) :
    ((create_rolling_features p [7, 14] [r1, r2, r3]).map
        (fun r => (find7 r).map RollEntry.sales_rolling_mean) =
          [some 10, some 15, some 20] ∧
      ((create_rolling_features p [7, 14] [r1, r2, r3]).map
        (fun r => (find7 r).bind RollEntry.sales_rolling_std)).head? =
          some (some 0)) ∧
    ((create_rolling_features p [7, 14, 30] [r1, r2, r3]).map
        (fun r => (find7 r).map RollEntry.sales_rolling_mean) =
          [some 10, some 15, some 20] ∧
      ((create_rolling_features p [7, 14, 30] [r1, r2, r3]).map
        (fun r => (find7 r).bind RollEntry.sales_rolling_std)).head? =
          some (some 0)) := by
  have hle12 : rle r1 r2 := Or.inr ⟨hs2.symm, Or.inr ⟨hp2.symm, hd12⟩⟩
  have hle13 : rle r1 r3 := Or.inr ⟨hs3.symm, Or.inr ⟨hp3.symm, hd12.trans hd23⟩⟩
  have hle23 : rle r2 r3 :=
    Or.inr ⟨hs2.trans hs3.symm, Or.inr ⟨hp2.trans hp3.symm, hd23⟩⟩
  have hsorted : List.Sorted rle [r1, r2, r3] := by
    simp only [List.sorted_cons, List.mem_cons, List.mem_singleton]
    exact ⟨fun b hb => by
        rcases hb with rfl | rfl | h
        · exact hle12
        · exact hle13
        · simp at h,
      fun b hb => by
        rcases hb with rfl | h
        · exact hle23
        · simp at h,
      by simp [List.Sorted]⟩
  have hsort : sortRows [r1, r2, r3] = [r1, r2, r3] := hsorted.insertionSort_eq
  unfold create_rolling_features
  rw [hsort]
  simp only [rollOnSorted, rollRow, List.nil_append, List.cons_append,
    List.singleton_append, List.map_cons, List.map_nil, List.filter]
  simp only [sameGroup, hs2, hs3, hp2, hp3, beq_self_eq_true, Bool.and_self,
    List.filter_nil]
  simp only [mkEntry, lastN, fillRow2, find7, List.find?, List.map_cons,
    List.map_nil, hv1, hv2, hv3]
  norm_num [mean, sampleVar, hv1, hv2, hv3]

/-- Concrete row family for the C1 witness. -/
def c1r (d dw : ℕ) (s : ℚ) : Row1 :=
  { store_id := 1, product := 2, date := d, sales := s, stock := 5, waste := 1,
    waste_percentage := 20, price := some 3, day_of_week := dw, shelf_life_days := 7,
    perishable := false, month := 1, is_weekend := false, day_sin := 0, day_cos := 0,
    month_sin := 0, month_cos := 0 }

/-- Evaluation witness for C1 on a concrete three-row partition. -/
theorem rolling_mean_expanding_C1_witness :
    (create_rolling_features irr0 [7, 14] [c1r 1 0 10, c1r 2 1 20, c1r 3 2 30]).map
      (fun r => (find7 r).map RollEntry.sales_rolling_mean) =
    [some 10, some 15, some 20] :=
  ((rolling_mean_expanding_C1 irr0 (c1r 1 0 10) (c1r 2 1 20) (c1r 3 2 30)
    rfl rfl rfl rfl (by norm_num [c1r]) (by norm_num [c1r]) rfl rfl rfl).1).1

/-- Base (pre-existing columns) of every rolling-stage output row is the
corresponding sorted-input row, except that a missing `price` entry is
zero-filled by the stage's whole-frame `fillna(0)`. -/
lemma rollOnSorted_map_toRow1 (p : Irr) (ws : List ℕ) :
    ∀ (seen l : List Row1), (rollOnSorted p ws seen l).map Row2.toRow1 = l := by
  intro seen l
  induction l generalizing seen with
  | nil => rfl
  | cons r rest ih => simp [rollOnSorted, rollRow, ih]

/-- C8 counterexample: the claim — the rolling stage leaves every
pre-existing column entry unchanged, including entries that held a missing
value — is false: `df.fillna(0)` applies to the whole frame, so a missing
`price` entry of the input is overwritten with 0. -/
theorem rolling_fill_overwrites_missing_C8_counterexample :
    (({ store_id := 1, product := 1, date := 1, sales := 2, stock := 5, waste := 1,
        waste_percentage := 20, price := none, day_of_week := 0, shelf_life_days := 7,
        perishable := false, month := 1, is_weekend := false, day_sin := 0, day_cos := 0,
        month_sin := 0, month_cos := 0 } : Row1)).price = none ∧
      (create_rolling_features irr0 [7]
          [{ store_id := 1, product := 1, date := 1, sales := 2, stock := 5, waste := 1,
             waste_percentage := 20, price := none, day_of_week := 0, shelf_life_days := 7,
             perishable := false, month := 1, is_weekend := false, day_sin := 0, day_cos := 0,
             month_sin := 0, month_cos := 0 }]).map (fun r => r.price) = [some 0] := by
  constructor
  · rfl
  · decide

/-- C8 amended: the rolling stage re-sorts the table and adds the rolling
columns; every non-missing pre-existing entry (raw ledger and calendar
columns) is unchanged, while missing entries of pre-existing columns are
zero-filled by the stage's closing whole-frame `fillna(0)`. -/
theorem rolling_frame_effect_C8 (p : Irr) (windows : List ℕ) (df : List Row1) :
    (create_rolling_features p windows df).map Row2.toRow1 =
      (sortRows df).map (fun r => { r with price := some (r.price.getD 0) }) := by
  unfold create_rolling_features
  rw [List.map_map]
  have hcomp :
      (Row2.toRow1 ∘ fillRow2) = fun x : Row2 =>
        ({ x.toRow1 with price := some (x.toRow1.price.getD 0) } : Row1) := rfl
  rw [hcomp]
  have : (fun x : Row2 => ({ x.toRow1 with price := some (x.toRow1.price.getD 0) } : Row1)) =
      (fun r : Row1 => ({ r with price := some (r.price.getD 0) } : Row1)) ∘ Row2.toRow1 := rfl
  rw [this, ← List.map_map, rollOnSorted_map_toRow1]

/-- The grouped rolling transform preserves, position for position, the
`product` count of the table. -/
lemma countP_rollOnSorted (p : Irr) (ws : List ℕ) (c : ℕ) :
    ∀ (seen l : List Row1),
      (rollOnSorted p ws seen l).countP (fun y => y.product == c) =
        l.countP (fun y => y.product == c) := by
  intro seen l
  induction l generalizing seen with
  | nil => rfl
  | cons r rest ih => simp [rollOnSorted, List.countP_cons, ih, rollRow]

/-- Every feature stage preserves the per-product observation count over
the whole table. -/
lemma countP_product_engineer (p : Irr) (windows : List ℕ) (df : List Row) (c : ℕ) :
    (create_ratio_features
        (create_rolling_features p windows (create_temporal_features p df))).countP
        (fun x => x.product == c) =
      df.countP (fun x => x.product == c) := by
  have h3 : ∀ l : List Row2,
      (create_ratio_features l).countP (fun x => x.product == c) =
        l.countP (fun x => x.product == c) := by
    intro l
    unfold create_ratio_features
    rw [List.countP_map]
    rfl
  have h2 : ∀ l : List Row1,
      (create_rolling_features p windows l).countP (fun x => x.product == c) =
        l.countP (fun x => x.product == c) := by
    intro l
    unfold create_rolling_features
    rw [List.countP_map]
    refine Eq.trans ?_ ((List.perm_insertionSort rle l).countP_eq _)
    exact countP_rollOnSorted p windows c [] (sortRows l)
  have h1 : (create_temporal_features p df).countP (fun x => x.product == c) =
      df.countP (fun x => x.product == c) := by
    unfold create_temporal_features
    rw [List.countP_map]
    rfl
  rw [h3, h2, h1]

/-- C7: after the full pipeline, a row whose product has exactly one
observation in the entire input table carries a missing (`none`, i.e. NaN)
`product_sales_std` from the cross-sectional aggregation — it is never
filled with 0, the rolling stage's zero-fill having already run earlier in
the pipeline. -/
theorem single_observation_product_std_C7 (p : Irr) (windows : List ℕ) (df : List Row)
    (r : Row4) (hmem : r ∈ engineer_features p windows df)
    (hone : df.countP (fun x => x.product == r.product) = 1) :
    r.product_sales_std = none := by
  unfold engineer_features create_aggregate_features at hmem
  obtain ⟨x, -, rfl⟩ := List.mem_map.1 hmem
  have hcount := countP_product_engineer p windows df x.product
  show (sampleVar _).map p.sqrtQ = none
  have hlen : ((create_ratio_features
      (create_rolling_features p windows (create_temporal_features p df))).filter
      (fun y => y.product == x.product)).length = 1 := by
    rw [← List.countP_eq_length_filter]
    exact hcount.trans hone
  rw [sampleVar, if_pos (by simp [hlen])]
  rfl

/-- Single-row table and its pipeline output row, for the C7 witness. -/
def c7row : Row :=
  { store_id := 1, product := 2, date := 1, sales := 10, stock := 5, waste := 1,
    waste_percentage := 20, price := some 3, day_of_week := 0, shelf_life_days := 7,
    perishable := false }

/-- Evaluation witness for C7 on a one-row table (its single product has
one observation). -/
theorem single_observation_product_std_C7_witness :
    (engineer_features irr0 [7, 14] [c7row]).map (fun r => r.product_sales_std) =
      [none] := by
  have hp : (engineer_features irr0 [7, 14] [c7row]).map (fun r : Row4 => r.product) =
      [2] := by decide
  rcases hE : engineer_features irr0 [7, 14] [c7row] with - | ⟨y, - | ⟨z, t⟩⟩
  · rw [hE] at hp
    exact absurd hp (by simp)
  · rw [hE] at hp
    simp only [List.map_cons, List.map_nil, List.cons.injEq, and_true] at hp
    have hy := single_observation_product_std_C7 irr0 [7, 14] [c7row] y
      (by rw [hE]; exact List.mem_singleton_self y)
      (by simp [List.countP_cons, hp, c7row])
    simp [hy]
  · rw [hE] at hp
    exact absurd hp (by simp)

/-- Strict key order on temporal rows, for the sorted-list uniqueness
argument. -/
def rlt (a b : Row1) : Prop := keyLt a.toRow b.toRow

lemma keyLt_of_keyLe_of_ne {a b : Row} (hle : keyLe a b) (hne : keyT a ≠ keyT b) :
    keyLt a b := by
  have hne' : ¬(a.store_id = b.store_id ∧ a.product = b.product ∧ a.date = b.date) := by
    intro h
    exact hne (by simp [keyT, h.1, h.2.1, h.2.2])
  unfold keyLe at hle
  unfold keyLt
  omega

instance : IsAntisymm Row1 rlt :=
  ⟨by
    intro a b h1 h2
    exfalso
    unfold rlt keyLt at h1 h2
    omega⟩

/-- Two tables that are permutations of each other with pairwise-distinct
`(store_id, product, date)` keys sort to the same list. -/
lemma sortRows_eq_of_perm (l1 l2 : List Row1) (hperm : l1.Perm l2)
    (hnd : (l1.map (fun r => keyT r.toRow)).Nodup) : sortRows l1 = sortRows l2 := by
  have hp1 : List.Perm (sortRows l1) l1 := List.perm_insertionSort rle l1
  have hp2 : List.Perm (sortRows l2) l2 := List.perm_insertionSort rle l2
  have hstrict : ∀ m : List Row1, List.Sorted rle m →
      ((m.map fun r => keyT r.toRow)).Nodup → List.Sorted rlt m := by
    intro m hm hndm
    have hne : m.Pairwise fun a b => keyT a.toRow ≠ keyT b.toRow :=
      List.pairwise_map.1 hndm
    exact (hm.and hne).imp fun h => keyLt_of_keyLe_of_ne h.1 h.2
  have hnd1 : ((sortRows l1).map fun r => keyT r.toRow).Nodup :=
    ((hp1.map _).nodup_iff).2 hnd
  have hnd2 : ((sortRows l2).map fun r => keyT r.toRow).Nodup :=
    ((hp2.map _).nodup_iff).2 (((hperm.map _).nodup_iff).1 hnd)
  exact List.eq_of_perm_of_sorted (hp1.trans (hperm.trans hp2.symm))
    (hstrict _ (List.sorted_insertionSort rle l1) hnd1)
    (hstrict _ (List.sorted_insertionSort rle l2) hnd2)

/-- C4: on any input table with at most one row per `(store_id, product,
date)` key, the full feature pipeline is sort-order-independent as a black
box: feeding any permutation of the rows produces the *same* output table
(hence, for each key, identical values of every rolling, ratio and
aggregate feature column), because the rolling stage re-sorts internally
by `(store_id, product, date)` and every later stage is a function of the
sorted table.  Holds for both orchestrators (the `src/` one in both the
empty and non-empty branch). -/
theorem pipeline_sort_invariance_C4 (p : Irr) (windows : List ℕ) (t1 t2 : List Row)
    (hperm : t1.Perm t2) (hnd : (t1.map keyT).Nodup) :
    engineer_features p windows t1 = engineer_features p windows t2 ∧
      engineer_features_src p windows t1 = engineer_features_src p windows t2 := by
  have hkey : sortRows (create_temporal_features p t1) =
      sortRows (create_temporal_features p t2) := by
    apply sortRows_eq_of_perm
    · exact hperm.map _
    · unfold create_temporal_features
      rw [List.map_map]
      exact hnd
  have h1 : engineer_features p windows t1 = engineer_features p windows t2 := by
    unfold engineer_features create_rolling_features
    rw [hkey]
  refine ⟨h1, ?_⟩
  unfold engineer_features_src
  by_cases he : t1 = []
  · subst he
    obtain rfl : t2 = [] := hperm.symm.eq_nil
    rfl
  · have he2 : t2 ≠ [] := fun h => he (by subst h; exact hperm.eq_nil)
    rw [if_neg (by simpa [List.isEmpty_iff] using he),
      if_neg (by simpa [List.isEmpty_iff] using he2), h1]

/-- Two-row tables (shuffled copies of each other) for the C4 witness. -/
def c4a : Row :=
  { store_id := 1, product := 2, date := 1, sales := 10, stock := 5, waste := 1,
    waste_percentage := 20, price := some 3, day_of_week := 0, shelf_life_days := 7,
    perishable := false }

/-- Second row of the C4 witness table. -/
def c4b : Row :=
  { store_id := 1, product := 2, date := 2, sales := 20, stock := 6, waste := 2,
    waste_percentage := 30, price := some 4, day_of_week := 1, shelf_life_days := 7,
    perishable := true }

/-- Evaluation witness for C4 on a concrete shuffled pair of rows. -/
theorem pipeline_sort_invariance_C4_witness :
    engineer_features irr0 [7, 14] [c4a, c4b] =
        engineer_features irr0 [7, 14] [c4b, c4a] ∧
      engineer_features_src irr0 [7, 14] [c4a, c4b] =
        engineer_features_src irr0 [7, 14] [c4b, c4a] :=
  pipeline_sort_invariance_C4 irr0 [7, 14] [c4a, c4b] [c4b, c4a]
    (List.Perm.swap c4b c4a []) (by decide)

/-- C10: the `src/` pipeline orchestrator `engineer_features` is guarded by
`if df.empty: return df`: on a zero-row table it returns the input
unchanged (left injection, the raw table), without running any of the four
feature stages, so no derived feature columns are added. -/
theorem empty_input_identity_C10 (p : Irr) (windows : List ℕ) :
    engineer_features_src p windows [] = Sum.inl [] := rfl

end Retail
